import Mathlib

/-!
Verification of the risk-managed order-sizing and execution engine of a
Bitget trading bot (`src/main.py`).  Monetary and quantity values are
modelled as exact rationals; `decimal.Decimal.quantize` with `ROUND_DOWN`
(toward zero) and `ROUND_UP` (away from zero) are modelled by `quantDown`
and `quantUp`, and Python's built-in `round` (round-half-to-even) by
`pyRound`.
-/

attribute [local semireducible] Rat.mul Rat.inv Rat.add Rat.sub

namespace CryptoBot

/-- Integer part of a rational, rounded toward zero (`decimal.ROUND_DOWN`). -/
def towardZero (y : ℚ) : ℤ := if 0 ≤ y then ⌊y⌋ else ⌈y⌉

/-- Integer part of a rational, rounded away from zero (`decimal.ROUND_UP`). -/
def awayZero (y : ℚ) : ℤ := if 0 ≤ y then ⌈y⌉ else ⌊y⌋

/-- Quantize `x` to `p` decimal places with `decimal.ROUND_DOWN` (truncate toward zero),
as in `Decimal(str(position_size)).quantize(Decimal(decimal_places), rounding=ROUND_DOWN)`. -/
def quantDown (p : ℕ) (x : ℚ) : ℚ := ((towardZero (x * 10 ^ p) : ℤ) : ℚ) / 10 ^ p

/-- Quantize `x` to `p` decimal places with `decimal.ROUND_UP` (away from zero). -/
def quantUp (p : ℕ) (x : ℚ) : ℚ := ((awayZero (x * 10 ^ p) : ℤ) : ℚ) / 10 ^ p

/-- Round-half-to-even of a rational to an integer, the semantics of Python's
built-in `round` on exact values. -/
def halfEvenInt (y : ℚ) : ℤ :=
  if y - ⌊y⌋ < 1 / 2 then ⌊y⌋
  else if 1 / 2 < y - ⌊y⌋ then ⌊y⌋ + 1
  else if ⌊y⌋ % 2 = 0 then ⌊y⌋ else ⌊y⌋ + 1

/-- Python's `round(x, p)`: round-half-to-even at `p` decimal places. -/
def pyRound (p : ℕ) (x : ℚ) : ℚ := ((halfEvenInt (x * 10 ^ p) : ℤ) : ℚ) / 10 ^ p

/-- Directed rounding down (floor mode) at `p` decimal places. -/
def floorRound (p : ℕ) (x : ℚ) : ℚ := ((⌊x * 10 ^ p⌋ : ℤ) : ℚ) / 10 ^ p

/-- Directed rounding up (ceiling mode) at `p` decimal places. -/
def ceilRound (p : ℕ) (x : ℚ) : ℚ := ((⌈x * 10 ^ p⌉ : ℤ) : ℚ) / 10 ^ p

/-- Per-instrument contract constraints as cached by `get_contract_info`:
`minTradeNum` (minimum quantity), `minTradeUSDT` (minimum notional),
`volumePlace` (quantity precision) and `priceEndStep` (price precision). -/
structure ContractInfo where
  minTradeNum : ℚ
  minTradeUSDT : ℚ
  volumePlace : ℕ
  priceEndStep : ℕ
  deriving DecidableEq, Repr

/-- Bot configuration read from the environment in `BitgetTradingBot.__init__`. -/
structure Config where
  symbols : List String
  max_position_percent : ℚ
  max_position_value : ℚ
  stop_loss_percent : ℚ
  take_profit_percent : ℚ
  confidence_threshold : ℤ
  min_balance : ℚ
  deriving DecidableEq, Repr

/-- Line 327 of `calculate_position_size`: `min_trade_num * current_price`. -/
def min_trade_usdt_calc (info : ContractInfo) (current_price : ℚ) : ℚ :=
  info.minTradeNum * current_price

/-- Line 330: `max(min_trade_usdt_from_api, min_trade_usdt_calculated, 5.0)`. -/
def min_trade_usdt_of (info : ContractInfo) (current_price : ℚ) : ℚ :=
  max (max info.minTradeUSDT (min_trade_usdt_calc info current_price)) 5

/-- Lines 339-340: `balance * (max_position_percent / 100)` capped by
`self.max_position_value`. -/
def max_position_value_of (cfg : Config) (balance : ℚ) : ℚ :=
  min (balance * (cfg.max_position_percent / 100)) cfg.max_position_value

/-- Line 353/357: position size in base currency truncated (`ROUND_DOWN`) to
`volumePlace` decimal places. -/
def truncated_size (info : ContractInfo) (max_position_value current_price : ℚ) : ℚ :=
  quantDown info.volumePlace (max_position_value / current_price)

/-- Lines 360-364: if the truncated size is below `minTradeNum`, replace it by
`minTradeNum` rounded up (`ROUND_UP`) to `volumePlace` decimal places. -/
def adjusted_size (info : ContractInfo) (max_position_value current_price : ℚ) : ℚ :=
  if truncated_size info max_position_value current_price < info.minTradeNum then
    quantUp info.volumePlace info.minTradeNum
  else truncated_size info max_position_value current_price

/-- Lines 352-380 of `calculate_position_size`: compute the truncated/adjusted
size and apply the two final rejection checks against the minimum notional
`min_trade_usdt` in scope at that point and against `balance * 0.95`. -/
def position_size_tail (info : ContractInfo) (balance current_price max_position_value min_trade_usdt : ℚ) : ℚ :=
  if adjusted_size info max_position_value current_price * current_price < min_trade_usdt then 0
  else if adjusted_size info max_position_value current_price * current_price > balance * (95 / 100) then 0
  else adjusted_size info max_position_value current_price

/-- `calculate_position_size` (lines 312-380), given the contract info the
function fetches for the symbol.  When the candidate value is below the
combined minimum, lines 343-350 either relax the minimum to
`min_trade_usdt_calculated` (when it is affordable and at least 1 USDT)
or return 0. -/
def calculate_position_size (cfg : Config) (info : ContractInfo) (balance current_price : ℚ) : ℚ :=
  if max_position_value_of cfg balance < min_trade_usdt_of info current_price then
    if max_position_value_of cfg balance ≥ min_trade_usdt_calc info current_price ∧
        min_trade_usdt_calc info current_price ≥ 1 then
      position_size_tail info balance current_price (max_position_value_of cfg balance)
        (min_trade_usdt_calc info current_price)
    else 0
  else
    position_size_tail info balance current_price (max_position_value_of cfg balance)
      (min_trade_usdt_of info current_price)

/-- Modelled from the claim text of spec section 4.2 read literally: the final
rejection check compares the recomputed notional against the step-2 effective
minimum `max(minNotionalUSD, minQuantity * price, 5)` itself, even when the
relaxed-minimum branch of step 3 was taken. -/
def size_per_claim (cfg : Config) (info : ContractInfo) (balance price : ℚ) : ℚ :=
  if max_position_value_of cfg balance < min_trade_usdt_of info price ∧
      ¬(1 ≤ min_trade_usdt_calc info price ∧
        min_trade_usdt_calc info price ≤ max_position_value_of cfg balance) then 0
  else
    if adjusted_size info (max_position_value_of cfg balance) price * price <
        min_trade_usdt_of info price then 0
    else if adjusted_size info (max_position_value_of cfg balance) price * price >
        balance * (95 / 100) then 0
    else adjusted_size info (max_position_value_of cfg balance) price

/-- Modelled from the spec (section 4.2) with the one amendment the code
forces: when the relaxed-minimum branch of step 3 is taken, the minimum used
by the step-6 rejection check is the relaxed minimum `minQuantity * price`
instead of the step-2 effective minimum. -/
def size_per_spec_amended (cfg : Config) (info : ContractInfo) (balance price : ℚ) : ℚ :=
  if max_position_value_of cfg balance < min_trade_usdt_of info price ∧
      ¬(1 ≤ min_trade_usdt_calc info price ∧
        min_trade_usdt_calc info price ≤ max_position_value_of cfg balance) then 0
  else
    if adjusted_size info (max_position_value_of cfg balance) price * price <
        (if max_position_value_of cfg balance < min_trade_usdt_of info price then
          min_trade_usdt_calc info price
        else min_trade_usdt_of info price) then 0
    else if adjusted_size info (max_position_value_of cfg balance) price * price >
        balance * (95 / 100) then 0
    else adjusted_size info (max_position_value_of cfg balance) price

/-- Configuration used for concrete sizing evaluations: 10 percent of balance,
1000 USDT cap, the remaining fields at the source defaults. -/
def cfgS : Config :=
  { symbols := ["E"], max_position_percent := 10, max_position_value := 1000,
    stop_loss_percent := 2, take_profit_percent := 6,
    confidence_threshold := 6, min_balance := 10 }

/-- Contract info used for concrete sizing evaluations: minimum quantity 0.001,
minimum notional 5 USDT, quantity precision 3, price precision 2. -/
def infoS : ContractInfo :=
  { minTradeNum := 1 / 1000, minTradeUSDT := 5, volumePlace := 3, priceEndStep := 2 }

/-- Splitting worker modelling Python's `str.split(sep)`: scan the character
list, emitting the accumulated segment each time `sep` occurs as a prefix of
the remainder.  The fuel argument (instantiated with the list length, which
bounds the number of scan steps) makes the recursion structural. -/
def splitOnGo (sep : List Char) : ℕ → List Char → List Char → List (List Char)
  | _, acc, [] => [acc.reverse]
  | 0, acc, l => [acc.reverse ++ l]
  | n + 1, acc, c :: rest =>
    if sep.isPrefixOf (c :: rest) then
      acc.reverse :: splitOnGo sep n [] (rest.drop (sep.length - 1))
    else splitOnGo sep n (c :: acc) rest

/-- Python's `s.split(sep)` on character lists (for nonempty `sep`). -/
def splitOnL (sep l : List Char) : List (List Char) := splitOnGo sep l.length [] l

/-- Python's `sep in s`: the split produces at least two segments. -/
def containsSub (l sep : List Char) : Prop := 2 ≤ (splitOnL sep l).length

instance (l sep : List Char) : Decidable (containsSub l sep) :=
  inferInstanceAs (Decidable (2 ≤ (splitOnL sep l).length))

/-- Python's `s.split(sep)[1]`: the segment between the first and second
occurrence of `sep`. -/
def partAfter (l sep : List Char) : List Char := (splitOnL sep l).getD 1 []

/-- Python's `str.strip()`: remove whitespace from both ends. -/
def trimL (l : List Char) : List Char :=
  ((l.dropWhile Char.isWhitespace).reverse.dropWhile Char.isWhitespace).reverse

/-- Python's `int` on a string of decimal digits. -/
def digitsVal (l : List Char) : ℕ := l.foldl (fun n c => n * 10 + (c.toNat - 48)) 0

/-- Parsed advisory decision, the return value of `_parse_ai_response`. -/
structure Decision where
  action : String
  confidence : ℤ
  reason : String
  deriving DecidableEq, Repr

/-- Digit characters of the part of a `CONFIDENCE:` line after the tag,
as filtered by `filter(str.isdigit, conf_part)` (line 302). -/
def confidence_digits (line : List Char) : List Char :=
  (trimL (partAfter line "CONFIDENCE:".toList)).filter Char.isDigit

/-- Value stored by a `CONFIDENCE:` line with at least one digit:
`min(max(int(digits), 0), 10)` (lines 302-303). -/
def clamped_confidence (line : List Char) : ℤ :=
  min (max ((digitsVal (confidence_digits line) : ℤ)) 0) 10

/-- Loop body of `_parse_ai_response` (lines 289-308) applied to one line of
the upper-cased response. -/
def parse_line_step (d : Decision) (line : List Char) : Decision :=
  if containsSub line "ACTION:".toList then
    if containsSub (trimL (partAfter line "ACTION:".toList)) "BUY".toList then
      { d with action := "buy" }
    else if containsSub (trimL (partAfter line "ACTION:".toList)) "SELL".toList then
      { d with action := "sell" }
    else { d with action := "hold" }
  else if containsSub line "CONFIDENCE:".toList then
    if confidence_digits line = [] then { d with confidence := 0 }
    else { d with confidence := clamped_confidence line }
  else if containsSub line "REASON:".toList then
    { d with reason := String.mk (trimL (partAfter line "REASON:".toList)) }
  else d

/-- `_parse_ai_response` (lines 284-310): upper-case the response, split on
newlines, and fold the line parser over the lines starting from the default
decision `{hold, 0, ""}`.  A `CONFIDENCE:` line with no digit yields 0 via the
`except` fallback; otherwise the concatenated digits are clamped to [0, 10]. -/
def parse_ai_response (response : String) : Decision :=
  (splitOnL "\n".toList (response.toList.map Char.toUpper)).foldl parse_line_step
    { action := "hold", confidence := 0, reason := "" }

/-- Raw stop-loss price of `_set_stop_orders` (lines 414-420) before rounding. -/
def stop_price_raw (cfg : Config) (side : String) (entry_price : ℚ) : ℚ :=
  if side = "long" then entry_price * (1 - cfg.stop_loss_percent / 100)
  else entry_price * (1 + cfg.stop_loss_percent / 100)

/-- Raw take-profit price of `_set_stop_orders` (lines 414-420) before rounding. -/
def take_profit_price_raw (cfg : Config) (side : String) (entry_price : ℚ) : ℚ :=
  if side = "long" then entry_price * (1 + cfg.take_profit_percent / 100)
  else entry_price * (1 - cfg.take_profit_percent / 100)

/-- Submitted stop-loss trigger price: `round(stop_price, price_precision)`
(line 433), Python's built-in round, i.e. round-half-to-even. -/
def stop_trigger (cfg : Config) (price_precision : ℕ) (side : String) (entry_price : ℚ) : ℚ :=
  pyRound price_precision (stop_price_raw cfg side entry_price)

/-- Submitted take-profit trigger price: `round(take_profit_price, price_precision)`
(line 443). -/
def take_profit_trigger (cfg : Config) (price_precision : ℕ) (side : String) (entry_price : ℚ) : ℚ :=
  pyRound price_precision (take_profit_price_raw cfg side entry_price)

/-- Observable actions of one trading cycle: market-data fetches, advisory
queries, and order submissions (market orders and trigger orders). -/
inductive Ev where
  | fetchMarket : String → Ev
  | advisory : String → Ev
  | order : String → String → String → ℚ → Ev
  | trigger : String → String → String → ℚ → ℚ → Ev
  deriving DecidableEq, Repr

/-- Symbol an event belongs to. -/
def evSymbol : Ev → String
  | .fetchMarket s => s
  | .advisory s => s
  | .order s _ _ _ => s
  | .trigger s _ _ _ _ => s

/-- Whether an event is an order submission (of either kind). -/
def isOrderEv : Ev → Bool
  | .order _ _ _ _ => true
  | .trigger _ _ _ _ _ => true
  | _ => false

/-- External world as seen by one `trading_cycle` invocation: configuration,
available balance, per-symbol ticker price (0 encodes missing/falsy data),
raw advisory response (`none` encodes a failed call), the exchange's position
list `(symbol, total)`, per-symbol contract info, and whether the entry order
placement succeeds. -/
structure Env where
  cfg : Config
  balance : ℚ
  price : String → ℚ
  aiText : String → Option String
  positions : List (String × ℚ)
  contract : String → Option ContractInfo
  entryOk : String → Bool

/-- `analyze_with_ai`: parse the advisory response, defaulting to
`{hold, 0, ""}` when the call fails. -/
def analyze_with_ai (env : Env) (sym : String) : Decision :=
  match env.aiText sym with
  | some t => parse_ai_response t
  | none => { action := "hold", confidence := 0, reason := "" }

/-- Price precision used by `_set_stop_orders` (line 425), defaulting to 2
when the contract info is unavailable. -/
def price_precision_of (env : Env) (sym : String) : ℕ :=
  match env.contract sym with
  | some info => info.priceEndStep
  | none => 2

/-- `_set_stop_orders` (lines 411-457): submit the stop-loss and take-profit
trigger orders with rounded trigger prices. -/
def set_stop_orders (env : Env) (side : String) (size entry_price : ℚ) (sym : String) : List Ev :=
  [Ev.trigger sym (if side = "long" then "close_long" else "close_short") "stop_market" size
      (stop_trigger env.cfg (price_precision_of env sym) side entry_price),
   Ev.trigger sym (if side = "long" then "close_long" else "close_short") "take_profit_market" size
      (take_profit_trigger env.cfg (price_precision_of env sym) side entry_price)]

/-- `place_order_with_stops` (lines 382-409): submit the market entry order,
then the protective orders when the entry succeeded. -/
def place_order_with_stops (env : Env) (side : String) (size current_price : ℚ) (sym : String) : List Ev :=
  Ev.order sym ("open_" ++ side) "market" size ::
    (if env.entryOk sym then set_stop_orders env side size current_price sym else [])

/-- `get_current_positions()` without a symbol filter (lines 155-173):
positions with nonzero total. -/
def active_positions (env : Env) : List (String × ℚ) :=
  env.positions.filter fun p => decide (p.2 ≠ 0)

/-- `get_current_positions(symbol)`: nonzero positions of one symbol. -/
def get_current_positions_for (env : Env) (sym : String) : List (String × ℚ) :=
  (active_positions env).filter fun p => decide (p.1 = sym)

/-- `close_existing_positions` (lines 459-483): for each fetched position of
the symbol, submit a market close order of the absolute size, direction from
the sign of the total. -/
def close_existing_positions (env : Env) (sym : String) : List Ev :=
  (get_current_positions_for env sym).filterMap fun p =>
    if p.1 = sym ∧ 0 < |p.2| then
      some (Ev.order sym (if 0 < p.2 then "close_long" else "close_short") "market" |p.2|)
    else none

/-- Position size computed in the cycle (line 523/535): 0 when contract info
is unavailable. -/
def position_size_for (env : Env) (sym : String) (current_price : ℚ) : ℚ :=
  match env.contract sym with
  | some info => calculate_position_size env.cfg info env.balance current_price
  | none => 0

/-- Lines 523-527 / 535-539: place the entry (with stops) when the computed
size is positive. -/
def trade_entry (env : Env) (side : String) (current_price : ℚ) (sym : String) : List Ev :=
  if 0 < position_size_for env sym current_price then
    place_order_with_stops env side (position_size_for env sym current_price) current_price sym
  else []

/-- Per-symbol body of `trading_cycle` (lines 498-544): fetch market data
(skip the symbol on missing price), query the advisory (skip below the
confidence threshold), then on a `buy` with no long position close an
existing short before entering long, and symmetrically for `sell`. -/
def process_symbol (env : Env) (all_positions : List (String × ℚ)) (sym : String) : List Ev :=
  Ev.fetchMarket sym ::
    if env.price sym = 0 then []
    else
      Ev.advisory sym ::
        if (analyze_with_ai env sym).confidence < env.cfg.confidence_threshold then []
        else
          if (analyze_with_ai env sym).action = "buy" ∧
              (all_positions.any fun p => decide (p.1 = sym ∧ 0 < p.2)) = false then
            (if (all_positions.any fun p => decide (p.1 = sym ∧ p.2 < 0)) = true then
              close_existing_positions env sym
            else []) ++ trade_entry env "long" (env.price sym) sym
          else if (analyze_with_ai env sym).action = "sell" ∧
              (all_positions.any fun p => decide (p.1 = sym ∧ p.2 < 0)) = false then
            (if (all_positions.any fun p => decide (p.1 = sym ∧ 0 < p.2)) = true then
              close_existing_positions env sym
            else []) ++ trade_entry env "short" (env.price sym) sym
          else []

/-- `trading_cycle` (lines 485-549): abort with no action when the balance is
below `min_balance`; otherwise cache the position list once and process every
configured symbol in order. -/
def trading_cycle (env : Env) : List Ev :=
  if env.balance < env.cfg.min_balance then []
  else (env.cfg.symbols.map (process_symbol env (active_positions env))).flatten

/-- Order-submission events of a given symbol, in submission order. -/
def ordersFor (sym : String) (l : List Ev) : List Ev :=
  l.filter fun e => isOrderEv e && (evSymbol e == sym)

/-- Concrete sizing configuration with stop-loss percent 25 and price
precision 1 used to exhibit the rounding mode of trigger prices. -/
def cfgA : Config := { cfgS with stop_loss_percent := 25 }

/-- Concrete sizing configuration with stop-loss percent 75. -/
def cfgB : Config := { cfgS with stop_loss_percent := 75 }

theorem towardZero_nonneg {y : ℚ} (hy : 0 ≤ y) : 0 ≤ towardZero y := by
  unfold towardZero
  rw [if_pos hy]
  exact Int.floor_nonneg.mpr hy

theorem quantDown_nonneg (p : ℕ) {x : ℚ} (hx : 0 ≤ x) : 0 ≤ quantDown p x := by
  unfold quantDown
  apply div_nonneg
  · exact_mod_cast towardZero_nonneg (mul_nonneg hx (by positivity))
  · positivity

theorem quantDown_le_self (p : ℕ) {x : ℚ} (hx : 0 ≤ x) : quantDown p x ≤ x := by
  unfold quantDown towardZero
  rw [if_pos (mul_nonneg hx (by positivity))]
  rw [div_le_iff₀ (by positivity : (0:ℚ) < 10 ^ p)]
  exact Int.floor_le _

theorem quantUp_ge_self (p : ℕ) {x : ℚ} (hx : 0 ≤ x) : x ≤ quantUp p x := by
  unfold quantUp awayZero
  rw [if_pos (mul_nonneg hx (by positivity))]
  rw [le_div_iff₀ (by positivity : (0:ℚ) < 10 ^ p)]
  exact Int.le_ceil _

theorem adjusted_size_props (info : ContractInfo) (maxPV current_price : ℚ)
    (hP : 0 < current_price) (hpv : 0 ≤ maxPV) :
    0 ≤ adjusted_size info maxPV current_price ∧
    info.minTradeNum ≤ adjusted_size info maxPV current_price ∧
    (∃ k : ℤ, adjusted_size info maxPV current_price = (k : ℚ) / 10 ^ info.volumePlace) := by
  have h0 : 0 ≤ truncated_size info maxPV current_price :=
    quantDown_nonneg _ (div_nonneg hpv hP.le)
  unfold adjusted_size
  split
  case isTrue h =>
    have hmq : 0 ≤ info.minTradeNum := le_of_lt (lt_of_le_of_lt h0 h)
    have hup := quantUp_ge_self info.volumePlace hmq
    exact ⟨le_trans hmq hup, hup, ⟨awayZero (info.minTradeNum * 10 ^ info.volumePlace), rfl⟩⟩
  case isFalse h =>
    exact ⟨h0, le_of_not_lt h, ⟨towardZero (maxPV / current_price * 10 ^ info.volumePlace), rfl⟩⟩

theorem position_size_tail_props (info : ContractInfo)
    (balance current_price maxPV m : ℚ) (hP : 0 < current_price) (hpv : 0 ≤ maxPV) :
    0 ≤ position_size_tail info balance current_price maxPV m ∧
    (∃ k : ℤ, position_size_tail info balance current_price maxPV m = (k : ℚ) / 10 ^ info.volumePlace) ∧
    (position_size_tail info balance current_price maxPV m = 0 ∨
      info.minTradeNum ≤ position_size_tail info balance current_price maxPV m) := by
  obtain ⟨ha0, hamin, hamul⟩ := adjusted_size_props info maxPV current_price hP hpv
  unfold position_size_tail
  split_ifs
  · exact ⟨le_refl 0, ⟨0, by simp⟩, Or.inl rfl⟩
  · exact ⟨le_refl 0, ⟨0, by simp⟩, Or.inl rfl⟩
  · exact ⟨ha0, hamul, Or.inr hamin⟩

/-- C1 (corrected, counterexample): the claim's literal six-step algorithm —
whose final rejection check compares the recomputed notional against the
step-2 effective minimum — disagrees with `calculate_position_size` at
balance 40, price 2000 with minimum quantity 0.001, minimum notional 5 and
quantity precision 3: the relaxed-minimum branch is taken (candidate
notional 4 is below the effective minimum 5) and the code accepts quantity
0.002 (notional 4 is at least the relaxed minimum 2), while the literal
algorithm rejects it (4 is below 5) and returns 0. -/
theorem c1_literal_claim_fails :
    size_per_claim cfgS infoS 40 2000 = 0 ∧
    calculate_position_size cfgS infoS 40 2000 = 1 / 500 ∧
    size_per_claim cfgS infoS 40 2000 ≠ calculate_position_size cfgS infoS 40 2000 := by
  decide

/-- C1 (amended): with the one forced amendment — when the relaxed-minimum
branch of step 3 is taken, the step-6 final check compares the recomputed
notional against the relaxed minimum `minQuantity * price` rather than the
step-2 effective minimum — the spec-4.2 algorithm computes exactly
`calculate_position_size`, for every balance, price and contract spec. -/
theorem c1_size_matches_amended_spec (cfg : Config) (info : ContractInfo) (balance price : ℚ) :
    size_per_spec_amended cfg info balance price = calculate_position_size cfg info balance price := by
  unfold size_per_spec_amended calculate_position_size position_size_tail
  simp only [ge_iff_le]
  split_ifs <;> first | rfl | tauto

/-- C2: for every balance and positive price, `calculate_position_size`
returns a non-negative quantity which is an integer multiple of
`10 ^ (-quantityPrecision)` and is either exactly 0 or at least the minimum
quantity `minTradeNum`; on the forced-minimum path this holds because
`ROUND_UP` never decreases a non-negative value. -/
theorem c2_size_nonneg_quantized_min (cfg : Config) (info : ContractInfo)
    (balance current_price : ℚ) (hP : 0 < current_price) :
    0 ≤ calculate_position_size cfg info balance current_price ∧
    (∃ k : ℤ, calculate_position_size cfg info balance current_price = (k : ℚ) / 10 ^ info.volumePlace) ∧
    (calculate_position_size cfg info balance current_price = 0 ∨
      info.minTradeNum ≤ calculate_position_size cfg info balance current_price) := by
  unfold calculate_position_size
  split_ifs with h1 h2
  · have hpv : 0 ≤ max_position_value_of cfg balance := by
      have ha := h2.1
      have hb := h2.2
      simp only [ge_iff_le] at ha hb
      linarith
    exact position_size_tail_props info balance current_price _ _ hP hpv
  · exact ⟨le_refl 0, ⟨0, by simp⟩, Or.inl rfl⟩
  · have hpv : 0 ≤ max_position_value_of cfg balance := by
      have h5 : (5 : ℚ) ≤ min_trade_usdt_of info current_price := le_max_right _ _
      have := not_lt.mp h1
      linarith
    exact position_size_tail_props info balance current_price _ _ hP hpv

/-- C2 witness at balance 100, price 2000. -/
theorem c2_size_nonneg_quantized_min_witness :
    (0 : ℚ) < 2000 ∧
    (0 ≤ calculate_position_size cfgS infoS 100 2000 ∧
      (∃ k : ℤ, calculate_position_size cfgS infoS 100 2000 = (k : ℚ) / 10 ^ infoS.volumePlace) ∧
      (calculate_position_size cfgS infoS 100 2000 = 0 ∨
        infoS.minTradeNum ≤ calculate_position_size cfgS infoS 100 2000)) :=
  ⟨by decide, c2_size_nonneg_quantized_min cfgS infoS 100 2000 (by decide)⟩

/-- C3: when the candidate notional is below the effective minimum,
`calculate_position_size` returns exactly 0 unless the relaxed minimum
`minQuantity * price` is at least 1 and at most the candidate notional, and
it substitutes the relaxed minimum (continuing with the tail of the
computation against it) exactly when that condition holds. -/
theorem c3_below_minimum_dichotomy (cfg : Config) (info : ContractInfo) (balance price : ℚ)
    (h1 : max_position_value_of cfg balance < min_trade_usdt_of info price) :
    (¬(1 ≤ min_trade_usdt_calc info price ∧
        min_trade_usdt_calc info price ≤ max_position_value_of cfg balance) →
      calculate_position_size cfg info balance price = 0) ∧
    ((1 ≤ min_trade_usdt_calc info price ∧
        min_trade_usdt_calc info price ≤ max_position_value_of cfg balance) →
      calculate_position_size cfg info balance price =
        position_size_tail info balance price (max_position_value_of cfg balance)
          (min_trade_usdt_calc info price)) := by
  unfold calculate_position_size
  rw [if_pos h1]
  constructor
  · intro h2
    rw [if_neg]
    intro hc
    exact h2 ⟨hc.2, hc.1⟩
  · intro h2
    rw [if_pos ⟨h2.2, h2.1⟩]

/-- C3 witness: at balance 10, price 2000 the candidate notional 1 is below
the effective minimum 5 and the relaxed condition fails (2 is not at most 1),
so the size is exactly 0. -/
theorem c3_below_minimum_dichotomy_witness :
    max_position_value_of cfgS 10 < min_trade_usdt_of infoS 2000 ∧
    ¬(1 ≤ min_trade_usdt_calc infoS 2000 ∧
        min_trade_usdt_calc infoS 2000 ≤ max_position_value_of cfgS 10) ∧
    calculate_position_size cfgS infoS 10 2000 = 0 :=
  ⟨by decide, by decide,
    (c3_below_minimum_dichotomy cfgS infoS 10 2000 (by decide)).1 (by decide)⟩

/-- C10: when the relaxed-minimum branch triggers (candidate notional below
the effective minimum, with `minQuantity * price` at least 1 and affordable),
the rest of the computation — including the final-notional rejection check —
runs against the relaxed minimum `minQuantity * price`, not against the
original effective minimum. -/
theorem c10_relaxed_branch_uses_relaxed_minimum (cfg : Config) (info : ContractInfo)
    (balance price : ℚ)
    (h1 : max_position_value_of cfg balance < min_trade_usdt_of info price)
    (h2 : max_position_value_of cfg balance ≥ min_trade_usdt_calc info price ∧
      min_trade_usdt_calc info price ≥ 1) :
    calculate_position_size cfg info balance price =
      position_size_tail info balance price (max_position_value_of cfg balance)
        (min_trade_usdt_calc info price) := by
  unfold calculate_position_size
  rw [if_pos h1, if_pos h2]

/-- C10 witness: balance 40, price 2000 — the relaxed branch triggers and the
final check against the relaxed minimum 2 accepts notional 4 (size 0.002),
whereas a check against the original effective minimum 5 would reject it. -/
theorem c10_relaxed_branch_uses_relaxed_minimum_witness :
    max_position_value_of cfgS 40 < min_trade_usdt_of infoS 2000 ∧
    (max_position_value_of cfgS 40 ≥ min_trade_usdt_calc infoS 2000 ∧
      min_trade_usdt_calc infoS 2000 ≥ 1) ∧
    calculate_position_size cfgS infoS 40 2000 =
      position_size_tail infoS 40 2000 (max_position_value_of cfgS 40)
        (min_trade_usdt_calc infoS 2000) :=
  ⟨by decide, by decide,
    c10_relaxed_branch_uses_relaxed_minimum cfgS infoS 40 2000 (by decide) (by decide)⟩

theorem parse_line_step_confidence_bounds (d : Decision) (line : List Char)
    (hd : 0 ≤ d.confidence ∧ d.confidence ≤ 10) :
    0 ≤ (parse_line_step d line).confidence ∧ (parse_line_step d line).confidence ≤ 10 := by
  unfold parse_line_step
  split_ifs <;>
    first
      | exact hd
      | exact ⟨le_refl 0, by norm_num⟩
      | exact ⟨le_min (le_max_right _ _) (by norm_num), min_le_right _ _⟩

theorem parse_confidence_in_range (response : String) :
    0 ≤ (parse_ai_response response).confidence ∧ (parse_ai_response response).confidence ≤ 10 := by
  unfold parse_ai_response
  have key : ∀ (ls : List (List Char)) (d : Decision),
      0 ≤ d.confidence → d.confidence ≤ 10 →
      0 ≤ (ls.foldl parse_line_step d).confidence ∧ (ls.foldl parse_line_step d).confidence ≤ 10 := by
    intro ls
    induction ls with
    | nil => intro d h1 h2; exact ⟨h1, h2⟩
    | cons l tl ih =>
      intro d h1 h2
      have hb := parse_line_step_confidence_bounds d l ⟨h1, h2⟩
      exact ih _ hb.1 hb.2
  exact key _ _ (by norm_num) (by norm_num)

theorem parse_line_step_no_fields (d : Decision) (line : List Char)
    (h1 : ¬containsSub line "ACTION:".toList)
    (h2 : ¬containsSub line "CONFIDENCE:".toList)
    (h3 : ¬containsSub line "REASON:".toList) :
    parse_line_step d line = d := by
  unfold parse_line_step
  rw [if_neg h1, if_neg h2, if_neg h3]

theorem foldl_parse_no_fields (ls : List (List Char)) (d : Decision)
    (h : ∀ line ∈ ls, ¬containsSub line "ACTION:".toList ∧
      ¬containsSub line "CONFIDENCE:".toList ∧ ¬containsSub line "REASON:".toList) :
    ls.foldl parse_line_step d = d := by
  induction ls generalizing d with
  | nil => rfl
  | cons l tl ih =>
    have hl := h l (List.mem_cons_self _ _)
    rw [List.foldl_cons, parse_line_step_no_fields d l hl.1 hl.2.1 hl.2.2]
    exact ih d (fun line hm => h line (List.mem_cons_of_mem _ hm))

/-- C6 (corrected, counterexample): `_parse_ai_response` upper-cases the whole
response before splitting into lines, so the stored reason for the input
`"ACTION: BUY\nCONFIDENCE: 8\nREASON: uptrend"` is `"UPTREND"`, not the
claimed `"uptrend"`. -/
theorem c6_reason_upcased_counterexample :
    parse_ai_response "ACTION: BUY\nCONFIDENCE: 8\nREASON: uptrend" =
      { action := "buy", confidence := 8, reason := "UPTREND" } ∧
    parse_ai_response "ACTION: BUY\nCONFIDENCE: 8\nREASON: uptrend" ≠
      { action := "buy", confidence := 8, reason := "uptrend" } := by
  decide

/-- C6 (amended): the example input maps to action `buy`, confidence 8 and
the upper-cased reason `"UPTREND"`; every input none of whose upper-cased
lines contains an `ACTION:`, `CONFIDENCE:` or `REASON:` field maps to the
default `{hold, 0, ""}`; and for every input string the parsed confidence is
clamped into [0, 10]. -/
theorem c6_parse_mapping_and_clamp :
    parse_ai_response "ACTION: BUY\nCONFIDENCE: 8\nREASON: uptrend" =
      { action := "buy", confidence := 8, reason := "UPTREND" } ∧
    (∀ s : String,
      (∀ line ∈ splitOnL "\n".toList (s.toList.map Char.toUpper),
        ¬containsSub line "ACTION:".toList ∧ ¬containsSub line "CONFIDENCE:".toList ∧
          ¬containsSub line "REASON:".toList) →
      parse_ai_response s = { action := "hold", confidence := 0, reason := "" }) ∧
    ∀ s : String, 0 ≤ (parse_ai_response s).confidence ∧ (parse_ai_response s).confidence ≤ 10 := by
  refine ⟨by decide, ?_, parse_confidence_in_range⟩
  intro s hs
  unfold parse_ai_response
  exact foldl_parse_no_fields _ _ hs

/-- C6 amended witness: the input `"no recognizable fields"` has a single
line containing none of the three field tags, so it parses to the default. -/
theorem c6_parse_mapping_and_clamp_witness :
    (∀ line ∈ splitOnL "\n".toList ("no recognizable fields".toList.map Char.toUpper),
      ¬containsSub line "ACTION:".toList ∧ ¬containsSub line "CONFIDENCE:".toList ∧
        ¬containsSub line "REASON:".toList) ∧
    parse_ai_response "no recognizable fields" =
      { action := "hold", confidence := 0, reason := "" } :=
  ⟨by decide, c6_parse_mapping_and_clamp.2.1 "no recognizable fields" (by decide)⟩

/-- C9: for every decision state and every line recognized as a `CONFIDENCE:`
line (containing `CONFIDENCE:` and not previously matched as an `ACTION:`
line), the parser stores the single integer obtained by concatenating all
digit characters after the tag, clamped into [0, 10], and stores 0 through
the exception fallback when the line has no digit character; `digitsVal`
concatenates digits positionally; concretely, `"CONFIDENCE: 8/10"` parses
the digits as 810 and clamps to 10 and `"CONFIDENCE: high"` yields 0. -/
theorem c9_confidence_digit_concatenation :
    (∀ (d : Decision) (line : List Char),
      ¬containsSub line "ACTION:".toList → containsSub line "CONFIDENCE:".toList →
      (confidence_digits line = [] → (parse_line_step d line).confidence = 0) ∧
      (confidence_digits line ≠ [] →
        (parse_line_step d line).confidence =
          min (max ((digitsVal (confidence_digits line) : ℤ)) 0) 10)) ∧
    (∀ (l : List Char) (c : Char),
      digitsVal (l ++ [c]) = digitsVal l * 10 + (c.toNat - 48)) ∧
    parse_ai_response "CONFIDENCE: 8/10" = { action := "hold", confidence := 10, reason := "" } ∧
    digitsVal (confidence_digits "CONFIDENCE: 8/10".toList) = 810 ∧
    clamped_confidence "CONFIDENCE: 8/10".toList = 10 ∧
    parse_ai_response "CONFIDENCE: high" = { action := "hold", confidence := 0, reason := "" } := by
  refine ⟨?_, ?_, by decide, by decide, by decide, by decide⟩
  · intro d line h1 h2
    unfold parse_line_step
    rw [if_neg h1, if_pos h2]
    constructor
    · intro hd
      rw [if_pos hd]
    · intro hd
      rw [if_neg hd]
      rfl
  · intro l c
    simp [digitsVal, List.foldl_append]

/-- C9 witness: the CONFIDENCE-line rule applied to the concrete line
`"CONFIDENCE: 8/10"` starting from the default decision. -/
theorem c9_confidence_digit_concatenation_witness :
    ¬containsSub "CONFIDENCE: 8/10".toList "ACTION:".toList ∧
    containsSub "CONFIDENCE: 8/10".toList "CONFIDENCE:".toList ∧
    confidence_digits "CONFIDENCE: 8/10".toList ≠ [] ∧
    (parse_line_step { action := "hold", confidence := 0, reason := "" }
        "CONFIDENCE: 8/10".toList).confidence =
      min (max ((digitsVal (confidence_digits "CONFIDENCE: 8/10".toList) : ℤ)) 0) 10 :=
  ⟨by decide, by decide, by decide,
    (c9_confidence_digit_concatenation.1 { action := "hold", confidence := 0, reason := "" }
      "CONFIDENCE: 8/10".toList (by decide) (by decide)).2 (by decide)⟩

/-- C4: the raw stop-loss and take-profit prices follow the long formulas
`ref * (1 - slp/100)` and `ref * (1 + tpp/100)` with signs inverted for a
short, and at reference price 100 with stop-loss 2 percent, take-profit 6
percent and price precision 2 the submitted triggers are 98 and 106 for a
long and 102 and 94 for a short. -/
theorem c4_stop_take_profit_prices :
    (∀ (cfg : Config) (entry : ℚ),
      stop_price_raw cfg "long" entry = entry * (1 - cfg.stop_loss_percent / 100) ∧
      take_profit_price_raw cfg "long" entry = entry * (1 + cfg.take_profit_percent / 100) ∧
      stop_price_raw cfg "short" entry = entry * (1 + cfg.stop_loss_percent / 100) ∧
      take_profit_price_raw cfg "short" entry = entry * (1 - cfg.take_profit_percent / 100)) ∧
    stop_trigger cfgS 2 "long" 100 = 98 ∧ take_profit_trigger cfgS 2 "long" 100 = 106 ∧
    stop_trigger cfgS 2 "short" 100 = 102 ∧ take_profit_trigger cfgS 2 "short" 100 = 94 := by
  refine ⟨fun cfg entry => ⟨rfl, rfl, ?_, ?_⟩, by decide, by decide, by decide, by decide⟩
  · unfold stop_price_raw
    rw [if_neg (by decide)]
  · unfold take_profit_price_raw
    rw [if_neg (by decide)]

/-- C5 (corrected, counterexample): the trigger prices are rounded with
Python's built-in `round`, i.e. round-half-to-even, which is not a directed
mode: at entry price 1 with stop-loss 25 percent and price precision 1 the
raw stop price 0.75 rounds up to 0.8 (a floor mode would give 0.7), while
with stop-loss 75 percent the raw stop price 0.25 rounds down to 0.2 (a
ceiling mode would give 0.3) — so the submitted trigger price agrees with
neither directed mode on all inputs, refuting the claim. -/
theorem c5_trigger_rounding_not_directed :
    stop_trigger cfgA 1 "long" 1 = 4 / 5 ∧
    floorRound 1 (stop_price_raw cfgA "long" 1) = 7 / 10 ∧
    stop_trigger cfgB 1 "long" 1 = 1 / 5 ∧
    ceilRound 1 (stop_price_raw cfgB "long" 1) = 3 / 10 := by
  decide

/-- C5 (amended): the quantity roundings of `calculate_position_size` use the
explicit directed modes (`ROUND_DOWN` never increases a non-negative value,
`ROUND_UP` never decreases it), but the stop-loss and take-profit trigger
prices are rounded with Python's default round-half-to-even, which rounds
ties to the even neighbour in either direction. -/
theorem c5_quantity_directed_trigger_half_even (p : ℕ) (x : ℚ) (hx : 0 ≤ x) :
    quantDown p x ≤ x ∧ x ≤ quantUp p x ∧
    (∀ (cfg : Config) (prec : ℕ) (side : String) (entry : ℚ),
      stop_trigger cfg prec side entry = pyRound prec (stop_price_raw cfg side entry) ∧
      take_profit_trigger cfg prec side entry = pyRound prec (take_profit_price_raw cfg side entry)) ∧
    pyRound 1 (1 / 4) = 2 / 10 ∧ pyRound 1 (3 / 4) = 8 / 10 :=
  ⟨quantDown_le_self p hx, quantUp_ge_self p hx, fun _ _ _ _ => ⟨rfl, rfl⟩, by decide, by decide⟩

/-- C5 amended witness at p = 1, x = 1/3. -/
theorem c5_quantity_directed_trigger_half_even_witness :
    (0 : ℚ) ≤ 1 / 3 ∧
    (quantDown 1 (1 / 3) ≤ 1 / 3 ∧ (1 : ℚ) / 3 ≤ quantUp 1 (1 / 3) ∧
      (∀ (cfg : Config) (prec : ℕ) (side : String) (entry : ℚ),
        stop_trigger cfg prec side entry = pyRound prec (stop_price_raw cfg side entry) ∧
        take_profit_trigger cfg prec side entry = pyRound prec (take_profit_price_raw cfg side entry)) ∧
      pyRound 1 (1 / 4) = 2 / 10 ∧ pyRound 1 (3 / 4) = 8 / 10) :=
  ⟨by decide, c5_quantity_directed_trigger_half_even 1 (1 / 3) (by decide)⟩

/-- Environment with a balance below the configured minimum, used to witness
the cycle-abort behaviour. -/
def envLow : Env :=
  { cfg := cfgS, balance := 5, price := fun _ => 0, aiText := fun _ => none,
    positions := [], contract := fun _ => none, entryOk := fun _ => false }

/-- C7: whenever the fetched balance is below `min_balance` the whole trading
cycle aborts — the event trace is empty, so no symbol gets a market-data
fetch or an advisory query and no order of any kind is submitted. -/
theorem c7_low_balance_aborts_cycle (env : Env) (h : env.balance < env.cfg.min_balance) :
    trading_cycle env = [] := by
  unfold trading_cycle
  rw [if_pos h]

/-- C7 witness: balance 5 against minimum 10. -/
theorem c7_low_balance_aborts_cycle_witness :
    envLow.balance < envLow.cfg.min_balance ∧ trading_cycle envLow = [] :=
  ⟨by decide, c7_low_balance_aborts_cycle envLow (by decide)⟩

theorem evSymbol_mem_close (env : Env) (sym : String) (e : Ev)
    (he : e ∈ close_existing_positions env sym) : evSymbol e = sym := by
  unfold close_existing_positions at he
  rw [List.mem_filterMap] at he
  obtain ⟨p, _, hp⟩ := he
  split at hp
  · cases hp
    rfl
  · cases hp

theorem evSymbol_mem_entry (env : Env) (side : String) (price : ℚ) (sym : String) (e : Ev)
    (he : e ∈ trade_entry env side price sym) : evSymbol e = sym := by
  unfold trade_entry at he
  split at he
  · unfold place_order_with_stops at he
    rcases List.mem_cons.mp he with h | h
    · subst h
      rfl
    · split at h
      · unfold set_stop_orders at h
        rcases List.mem_cons.mp h with h2 | h2
        · subst h2
          rfl
        · rcases List.mem_cons.mp h2 with h3 | h3
          · subst h3
            rfl
          · cases h3
      · cases h
  · cases he

theorem evSymbol_mem_process (env : Env) (aPos : List (String × ℚ)) (sym : String) (e : Ev)
    (he : e ∈ process_symbol env aPos sym) : evSymbol e = sym := by
  unfold process_symbol at he
  rcases List.mem_cons.mp he with h | h
  · subst h
    rfl
  · split at h
    · cases h
    · rcases List.mem_cons.mp h with h2 | h2
      · subst h2
        rfl
      · split at h2
        · cases h2
        · split at h2
          · rcases List.mem_append.mp h2 with h3 | h3
            · split at h3
              · exact evSymbol_mem_close env sym e h3
              · cases h3
            · exact evSymbol_mem_entry env "long" _ sym e h3
          · split at h2
            · rcases List.mem_append.mp h2 with h3 | h3
              · split at h3
                · exact evSymbol_mem_close env sym e h3
                · cases h3
              · exact evSymbol_mem_entry env "short" _ sym e h3
            · cases h2

theorem ordersFor_other_symbol (env : Env) (aPos : List (String × ℚ)) (sym s' : String)
    (hne : s' ≠ sym) : ordersFor sym (process_symbol env aPos s') = [] := by
  unfold ordersFor
  rw [List.filter_eq_nil_iff]
  intro e he
  have htag := evSymbol_mem_process env aPos s' e he
  simp [htag, hne]

theorem ordersFor_process_close_head (env : Env) (aPos : List (String × ℚ)) (sym : String) (s : ℚ)
    (hprice : ¬ env.price sym = 0)
    (hconf : ¬ (analyze_with_ai env sym).confidence < env.cfg.confidence_threshold)
    (hact : (analyze_with_ai env sym).action = "buy")
    (hL : (aPos.any fun p => decide (p.1 = sym ∧ 0 < p.2)) = false)
    (hS : (aPos.any fun p => decide (p.1 = sym ∧ p.2 < 0)) = true)
    (hclose : close_existing_positions env sym = [Ev.order sym "close_short" "market" s]) :
    ∃ rest, ordersFor sym (process_symbol env aPos sym) =
      Ev.order sym "close_short" "market" s :: rest := by
  unfold process_symbol
  rw [if_neg hprice, if_neg hconf, if_pos ⟨hact, hL⟩, if_pos hS, hclose]
  refine ⟨ordersFor sym (trade_entry env "long" (env.price sym) sym), ?_⟩
  unfold ordersFor
  simp [isOrderEv, evSymbol]

theorem ordersFor_flatten_head (env : Env) (aPos : List (String × ℚ)) (sym : String) (c : Ev)
    (hOne : ∃ r, ordersFor sym (process_symbol env aPos sym) = c :: r)
    (hTag : ∀ s', s' ≠ sym → ordersFor sym (process_symbol env aPos s') = []) :
    ∀ syms : List String, sym ∈ syms →
      ∃ rest, ordersFor sym ((syms.map (process_symbol env aPos)).flatten) = c :: rest := by
  intro syms
  induction syms with
  | nil => intro h; cases h
  | cons a tl ih =>
    intro hmem
    simp only [List.map_cons, List.flatten_cons]
    unfold ordersFor
    rw [List.filter_append]
    by_cases ha : a = sym
    · subst ha
      obtain ⟨r, hr⟩ := hOne
      unfold ordersFor at hr
      rw [hr]
      exact ⟨r ++ _, rfl⟩
    · have h0 := hTag a ha
      unfold ordersFor at h0
      rw [h0, List.nil_append]
      have hm : sym ∈ tl := by
        rcases List.mem_cons.mp hmem with h | h
        · exact absurd h.symm ha
        · exact h
      have := ih hm
      unfold ordersFor at this
      exact this

/-- C8: in any cycle where a symbol's only exchange position is a short of
signed size `-s` (`s > 0`) and the advisory decision for it is `buy` at or
above the confidence threshold (with the balance check passed and market
data present), a `close_short` market order of size `s` is the first order
submitted for that symbol — in particular it precedes any `open_long` entry
order for the symbol. -/
theorem c8_close_short_before_long_entry (env : Env) (sym : String) (s : ℚ)
    (hmem : sym ∈ env.cfg.symbols)
    (hbal : ¬ env.balance < env.cfg.min_balance)
    (hpos : env.positions.filter (fun p => decide (p.1 = sym)) = [(sym, -s)])
    (hs : 0 < s)
    (hprice : ¬ env.price sym = 0)
    (hact : (analyze_with_ai env sym).action = "buy")
    (hconf : ¬ (analyze_with_ai env sym).confidence < env.cfg.confidence_threshold) :
    ∃ rest, ordersFor sym (trading_cycle env) =
      Ev.order sym "close_short" "market" s :: rest := by
  have hsne : (-s : ℚ) ≠ 0 := neg_ne_zero.mpr (ne_of_gt hs)
  have hmempos : (sym, -s) ∈ env.positions := by
    have h1 : (sym, -s) ∈ env.positions.filter (fun p => decide (p.1 = sym)) := by
      rw [hpos]
      exact List.mem_singleton.mpr rfl
    exact (List.mem_filter.mp h1).1
  have hmemact : (sym, -s) ∈ active_positions env := by
    unfold active_positions
    rw [List.mem_filter]
    exact ⟨hmempos, by simp [hsne]⟩
  have honly : ∀ p ∈ active_positions env, p.1 = sym → p = (sym, -s) := by
    intro p hp h1
    have hpl : p ∈ env.positions := (List.mem_filter.mp hp).1
    have : p ∈ env.positions.filter (fun p => decide (p.1 = sym)) :=
      List.mem_filter.mpr ⟨hpl, by simp [h1]⟩
    rw [hpos] at this
    exact List.mem_singleton.mp this
  have hS : ((active_positions env).any fun p => decide (p.1 = sym ∧ p.2 < 0)) = true := by
    rw [List.any_eq_true]
    refine ⟨(sym, -s), hmemact, ?_⟩
    simp [neg_lt_zero.mpr hs]
  have hL : ((active_positions env).any fun p => decide (p.1 = sym ∧ 0 < p.2)) = false := by
    rw [List.any_eq_false]
    intro p hp
    simp only [decide_eq_true_eq, not_and]
    intro h1
    have := honly p hp h1
    rw [this]
    simp [not_lt.mpr (neg_nonpos.mpr hs.le)]
  have hget : get_current_positions_for env sym = [(sym, -s)] := by
    unfold get_current_positions_for active_positions
    rw [List.filter_comm, hpos]
    simp [hsne]
  have hclose : close_existing_positions env sym = [Ev.order sym "close_short" "market" s] := by
    unfold close_existing_positions
    rw [hget]
    have habs : |(-s : ℚ)| = s := by
      rw [abs_neg]
      exact abs_of_pos hs
    simp [List.filterMap_cons, habs, hsne, not_lt.mpr (neg_nonpos.mpr hs.le)]
  unfold trading_cycle
  rw [if_neg hbal]
  exact ordersFor_flatten_head env (active_positions env) sym _
    (ordersFor_process_close_head env (active_positions env) sym s hprice hconf hact hL hS hclose)
    (fun s' h => ordersFor_other_symbol env (active_positions env) sym s' h)
    env.cfg.symbols hmem

/-- Environment with one symbol `"E"` holding a short position of size 5 and
an advisory response recommending `buy` with confidence 8. -/
def envC8 : Env :=
  { cfg := cfgS, balance := 100, price := fun _ => 2000,
    aiText := fun _ => some "ACTION: BUY\nCONFIDENCE: 8", positions := [("E", -5)],
    contract := fun _ => some infoS, entryOk := fun _ => true }

/-- C8 witness: concrete cycle closing a short of size 5 before the long entry. -/
theorem c8_close_short_before_long_entry_witness :
    "E" ∈ envC8.cfg.symbols ∧
    ¬ envC8.balance < envC8.cfg.min_balance ∧
    envC8.positions.filter (fun p => decide (p.1 = "E")) = [("E", -5)] ∧
    (0 : ℚ) < 5 ∧
    ¬ envC8.price "E" = 0 ∧
    (analyze_with_ai envC8 "E").action = "buy" ∧
    ¬ (analyze_with_ai envC8 "E").confidence < envC8.cfg.confidence_threshold ∧
    (∃ rest, ordersFor "E" (trading_cycle envC8) =
      Ev.order "E" "close_short" "market" 5 :: rest) :=
  ⟨by decide, by decide, by decide, by decide, by decide, by decide, by decide,
    c8_close_short_before_long_entry envC8 "E" 5 (by decide) (by decide) (by decide)
      (by decide) (by decide) (by decide) (by decide)⟩

end CryptoBot
